import Mathlib

/-!
# Verification of the json2xml-zig benchmark harness against its specification

A shallow embedding of `src/benchmark.py` (the benchmarking harness) together
with a model, built from the specification, of the JSON→XML conversion engine
the harness measures (the engine itself is not part of the provided sources).

Conventions of the embedding:
* Wall-clock durations and all Python floats are modelled as rationals (`ℚ`).
* Effects of `subprocess.run` are inputs: a timed invocation is a
  `SubprocResult` (return code and measured duration), and a function that in
  Python performs subprocess calls receives the list of outcomes it would
  observe.
* Randomness (`random.choices`, `random.uniform`, …) is an oracle passed in
  explicitly; the oracle's codomain encodes exactly the range the Python
  call draws from (e.g. `Fin 52` for a choice among `string.ascii_letters`).
-/

/- ## Embedding of `run_benchmark` (benchmark.py lines 83–119)

`run_benchmark(cmd, iterations, warmup)` performs `warmup` untimed subprocess
runs, then `iterations` timed runs; timed runs with nonzero return code are
skipped (their error is printed); it returns a dict with keys `avg`, `min`,
`max`. We model the dict as a structure with exactly those three fields, and
the two batches of subprocess outcomes as explicit input lists. -/

/-- Outcome of one `subprocess.run` invocation: its return code and the
wall-clock duration measured around it, in milliseconds. -/
structure SubprocResult where
  returncode : Int
  duration : ℚ
deriving DecidableEq, Repr

/-- The dict returned by `run_benchmark`: exactly the keys `avg`, `min`,
`max` (benchmark.py lines 113 and 115–119). -/
structure BenchStats where
  avg : ℚ
  min : ℚ
  max : ℚ
deriving DecidableEq, Repr

/-- Embedding of `run_benchmark` (benchmark.py lines 83–119).  The warmup outcomes are
observed but discarded (the Python loop only calls `subprocess.run`); a timed
outcome with nonzero return code is skipped via `continue`; if no timed run
succeeded the zero dict is returned, otherwise `avg` is `sum/len`, `min` and
`max` are Python's `min`/`max` over the collected durations (a left fold of
the binary min/max over the nonempty list). -/
def run_benchmark (warmupRuns : List SubprocResult)
    (timedRuns : List SubprocResult) : BenchStats :=
  let times : List ℚ :=
    (timedRuns.filter (fun r => r.returncode == 0)).map (fun r => r.duration)
  match times with
  | [] => ⟨0, 0, 0⟩
  | t :: ts =>
      { avg := (t :: ts).sum / (t :: ts).length
        min := ts.foldl min t
        max := ts.foldl max t }

/- ## Embedding of `format_time` (benchmark.py lines 122–129) -/

/-- Python's `f"{x:.2f}"`: the value rounded to two decimal places and
printed with exactly two digits after the point.  (CPython rounds the
underlying binary float to nearest; on our rational model we round to
nearest hundredth, half away from zero — the tie behaviour is irrelevant to
every theorem below, which treat `fmt2` as opaque.) -/
def fmt2 (x : ℚ) : String :=
  let n : Int := round (x * 100)
  let a : Int := |n|
  let sign : String := if n < 0 then "-" else ""
  let ip : Int := a / 100
  let fp : Int := a % 100
  let fpStr : String := if fp < 10 then "0" ++ toString fp else toString fp
  sign ++ toString ip ++ "." ++ fpStr

/-- Embedding of `format_time` (benchmark.py lines 122–129): sub-millisecond values are
scaled to microseconds, values below a second printed in milliseconds,
larger values scaled to seconds. -/
def format_time (ms : ℚ) : String :=
  if ms < 1 then fmt2 (ms * 1000) ++ "µs"
  else if ms < 1000 then fmt2 ms ++ "ms"
  else fmt2 (ms / 1000) ++ "s"

/- ## Embedding of `main`'s prerequisite checks and control flow
(benchmark.py lines 147–346) -/

/-- The external state `main` observes while checking prerequisites:
whether `import json2xml` succeeds in a subprocess, whether the Go and Zig
binaries exist, the return code `zig build` would produce if invoked, and
whether the medium example file exists. -/
structure Env where
  pythonOk : Bool
  goExists : Bool
  zigExists : Bool
  zigBuildRc : Int
  mediumExists : Bool
deriving DecidableEq, Repr

/-- Embedding of the control flow of `main` (benchmark.py lines 147–346), returning the exit
code together with the number of `run_benchmark` invocations it performs.
If the Python `json2xml` import fails, return 1 immediately (line 164).  A
missing Go binary merely sets `go_available = False` (line 170).  If the Zig
binary is absent, `zig build` is attempted and a nonzero return code aborts
with 1 (line 186).  Otherwise every size (small, large, very large, plus
medium when the example file exists) is benchmarked for Python and Zig, and
for Go when available, and `main` returns 0 (line 346). -/
def mainRun (e : Env) : Int × Nat :=
  if !e.pythonOk then (1, 0)
  else
    let go_available := e.goExists
    if !e.zigExists && !(e.zigBuildRc == 0) then (1, 0)
    else
      let sizes : Nat := (if e.mediumExists then 1 else 0) + 3
      let perSize : Nat := if go_available then 3 else 2
      (0, sizes * perSize)

/- ## Embedding of the summary's speedup computations
(benchmark.py lines 295–339)

To reason about division safety we record, for each division the summary
code actually executes, the pair (numerator, denominator), following the
exact guards of the Python code. -/

/-- The three per-tool stats recorded for one input size
(`results[size] = {"python": …, "go": …, "zig": …}`). -/
structure SizeResult where
  python : BenchStats
  go : BenchStats
  zig : BenchStats
deriving DecidableEq, Repr

/-- The (numerator, denominator) pairs of every division executed by the
per-size summary loop body (benchmark.py lines 295–318) for one size:
`py_avg / go_avg` only inside `if go_avg > 0` (line 305); the conditional
expression `py_avg / zig_avg if zig_avg > 0 else 0` (line 309); and inside
`if go_avg > 0 and zig_avg > 0` (line 312) the division `go_avg / zig_avg`
(line 313) followed, when the ratio is not greater than 1, by
`1 / zig_vs_go` (line 317). -/
def perSizeDivs (d : SizeResult) : List (ℚ × ℚ) :=
  (if d.go.avg > 0 then [(d.python.avg, d.go.avg)] else []) ++
  (if d.zig.avg > 0 then [(d.python.avg, d.zig.avg)] else []) ++
  (if d.go.avg > 0 ∧ d.zig.avg > 0 then
    (d.go.avg, d.zig.avg) ::
      (if d.go.avg / d.zig.avg > 1 then [] else [(1, d.go.avg / d.zig.avg)])
  else [])

/-- Python's `total_py` (benchmark.py line 321): sum of Python averages over
all sizes. -/
def totalPy (rs : List SizeResult) : ℚ := (rs.map (fun r => r.python.avg)).sum

/-- Python's `total_go` (benchmark.py line 322): sum of Go averages over the
sizes where the Go average is positive. -/
def totalGo (rs : List SizeResult) : ℚ :=
  ((rs.filter (fun r => r.go.avg > 0)).map (fun r => r.go.avg)).sum

/-- Python's `total_zig` (benchmark.py line 323): sum of Zig averages over
all sizes. -/
def totalZig (rs : List SizeResult) : ℚ := (rs.map (fun r => r.zig.avg)).sum

/-- The (numerator, denominator) pairs of every division executed by the
overall-average summary (benchmark.py lines 320–339):
`total_py / total_go` inside `if total_go > 0` (line 327),
`total_py / total_zig` inside `if total_zig > 0` (line 331), and inside the
nested `if total_go > 0` the division `total_go / total_zig` (line 335)
followed, when not greater than 1, by `1 / zig_vs_go_overall` (line 339). -/
def overallDivs (rs : List SizeResult) : List (ℚ × ℚ) :=
  (if totalGo rs > 0 then [(totalPy rs, totalGo rs)] else []) ++
  (if totalZig rs > 0 then
    (totalPy rs, totalZig rs) ::
    (if totalGo rs > 0 then
      (totalGo rs, totalZig rs) ::
        (if totalGo rs / totalZig rs > 1 then [] else [(1, totalGo rs / totalZig rs)])
    else [])
  else [])

/-- All divisions the SUMMARY section executes over the collected results,
per size and overall. -/
def summaryDivs (rs : List SizeResult) : List (ℚ × ℚ) :=
  (rs.map perSizeDivs).flatten ++ overallDivs rs

/- ## The JSON value model

Shared by the embedding of `generate_large_json` (which builds a Python
list/dict tree and serialises it with `json.dumps`) and by the spec-modelled
conversion engine.  Python distinguishes ints from floats, so the model
does too. -/

/-- A parsed JSON document: null, boolean, number (integer or floating),
string, ordered array, ordered object (spec §3; also the shape of the
Python value `generate_large_json` passes to `json.dumps`). -/
inductive JsonValue where
  | null : JsonValue
  | bool (b : Bool) : JsonValue
  | intNum (n : Int) : JsonValue
  | floatNum (q : ℚ) : JsonValue
  | str (s : String) : JsonValue
  | arr (items : List JsonValue) : JsonValue
  | obj (entries : List (String × JsonValue)) : JsonValue

/-- The keys of a JSON object, in order (empty for non-objects). -/
def objKeys : JsonValue → List String
  | .obj entries => entries.map (fun e => e.1)
  | _ => []

/-- First value bound to key `k` in a JSON object (Python dicts built by
`generate_large_json` have unique keys, so first = only). -/
def jlookup (k : String) : JsonValue → Option JsonValue
  | .obj entries => (entries.find? (fun e => e.1 == k)).map (fun e => e.2)
  | _ => none

mutual

/-- Number of nodes of the value tree (each scalar, array and object counts
one).  Used to express linear size scaling in the record count. -/
def nodeCount : JsonValue → Nat
  | .null => 1
  | .bool _ => 1
  | .intNum _ => 1
  | .floatNum _ => 1
  | .str _ => 1
  | .arr items => 1 + nodeCountList items
  | .obj entries => 1 + nodeCountEntries entries

/-- Total node count of a list of JSON values. -/
def nodeCountList : List JsonValue → Nat
  | [] => 0
  | v :: vs => nodeCount v + nodeCountList vs

/-- Total node count of the values of a list of object entries. -/
def nodeCountEntries : List (String × JsonValue) → Nat
  | [] => 0
  | e :: es => nodeCount e.2 + nodeCountEntries es

end

/- ## Embedding of `json.dumps`

`generate_large_json` returns `json.dumps(data)` with default options:
item separator `", "`, key separator `": "`, `ensure_ascii=True`. -/

/-- One hex digit. -/
def hexDigit (n : Nat) : Char :=
  if n < 10 then Char.ofNat (48 + n) else Char.ofNat (87 + n)

/-- JSON string escaping as performed by `json.dumps` with
`ensure_ascii=True`: the two mandatory escapes, the short control escapes,
`\uXXXX` for remaining control characters and for all non-ASCII code points
(astral code points as surrogate pairs). -/
def escapeJsonChar (c : Char) : String :=
  if c = '"' then "\\\""
  else if c = '\\' then "\\\\"
  else if c = '\n' then "\\n"
  else if c = '\t' then "\\t"
  else if c = '\r' then "\\r"
  else if c.toNat = 8 then "\\b"
  else if c.toNat = 12 then "\\f"
  else if c.toNat < 32 ∨ c.toNat > 126 then
    if c.toNat < 65536 then
      "\\u" ++ String.mk [hexDigit (c.toNat / 4096 % 16), hexDigit (c.toNat / 256 % 16),
        hexDigit (c.toNat / 16 % 16), hexDigit (c.toNat % 16)]
    else
      let v := c.toNat - 65536
      let hi := 55296 + v / 1024
      let lo := 56320 + v % 1024
      "\\u" ++ String.mk [hexDigit (hi / 4096 % 16), hexDigit (hi / 256 % 16),
        hexDigit (hi / 16 % 16), hexDigit (hi % 16)] ++
      "\\u" ++ String.mk [hexDigit (lo / 4096 % 16), hexDigit (lo / 256 % 16),
        hexDigit (lo / 16 % 16), hexDigit (lo % 16)]
  else String.mk [c]

/-- Escape a whole string for a JSON string literal. -/
def escapeJson (s : String) : String :=
  String.join (s.toList.map escapeJsonChar)

/-- Python `repr` of a float that carries at most two decimal places (the
only floats `generate_large_json` produces, via `round(x, 2)`): integer
part, a point, then the fractional digits with a trailing zero stripped but
at least one digit kept (`55.0` → `"55.0"`, `55.1` → `"55.1"`,
`55.13` → `"55.13"`). -/
def floatRepr (q : ℚ) : String :=
  let n : Int := round (q * 100)
  let a : Int := |n|
  let sign : String := if n < 0 then "-" else ""
  let ip : Int := a / 100
  let fp : Int := a % 100
  let fpStr : String :=
    if fp = 0 then "0"
    else if fp % 10 = 0 then toString (fp / 10)
    else if fp < 10 then "0" ++ toString fp
    else toString fp
  sign ++ toString ip ++ "." ++ fpStr

mutual

/-- Embedding of `json.dumps` with default options (separators `", "` / `": "`). -/
def dumps : JsonValue → String
  | .null => "null"
  | .bool b => if b then "true" else "false"
  | .intNum n => toString n
  | .floatNum q => floatRepr q
  | .str s => "\"" ++ escapeJson s ++ "\""
  | .arr items => "[" ++ dumpsList items ++ "]"
  | .obj entries => "\x7b" ++ dumpsEntries entries ++ "\x7d"

/-- Serialise array items joined by `", "`. -/
def dumpsList : List JsonValue → String
  | [] => ""
  | [v] => dumps v
  | v :: vs => dumps v ++ ", " ++ dumpsList vs

/-- Serialise object entries joined by `", "`, each `"key": value`. -/
def dumpsEntries : List (String × JsonValue) → String
  | [] => ""
  | [e] => "\"" ++ escapeJson e.1 ++ "\": " ++ dumps e.2
  | e :: es => "\"" ++ escapeJson e.1 ++ "\": " ++ dumps e.2 ++ ", " ++ dumpsEntries es

end

/- ## Embedding of `random_string` and `generate_large_json`
(benchmark.py lines 52–80)

Randomness is an explicit oracle.  Each Python draw is modelled by an oracle
value whose type is exactly the range drawn from: `random.choices(
string.ascii_letters)` picks indices into the 52 ASCII letters, `random.
choice([True, False])` a boolean, `round(random.uniform(0, 100), 2)` a
number of hundredths in 0..10000, `random.randint(1, 100)` a value in
1..100. -/

/-- Python's `string.ascii_letters`: the 26 lowercase then 26 uppercase
ASCII letters. -/
def asciiLetters : List Char :=
  "abcdefghijklmnopqrstuvwxyzABCDEFGHIJKLMNOPQRSTUVWXYZ".toList

/-- Embedding of `random_string(length)` (benchmark.py lines 52–54): joins `length`
letters chosen from `string.ascii_letters`; the oracle `choice` gives the
index chosen at each position. -/
def random_string (choice : Nat → Fin 52) (length : Nat) : String :=
  String.mk ((List.range length).map (fun j => asciiLetters.getD (choice j).val 'a'))

/-- The random draws one record of `generate_large_json` performs
(benchmark.py lines 61–78), in oracle form. -/
structure RecordRand where
  nameC : Nat → Fin 52
  emailC : Nat → Fin 52
  active : Bool
  scoreHundredths : Fin 10001
  versionR : Fin 100
  tagC : Nat → Nat → Fin 52
  valueC : Nat → Fin 52

/-- The `item` dict built for index `i` by the loop body of
`generate_large_json` (benchmark.py lines 61–78): keys in insertion order
`id`, `name`, `email`, `active`, `score`, `tags`, `metadata`; `id` is the
loop index, `score` is `round(uniform(0,100), 2)` (a two-decimal value),
`tags` five random strings of length 5, and `metadata` a dict whose
`nested` entry nests `level1` → `level2` → `value`. -/
def genRecord (r : RecordRand) (i : Nat) : JsonValue :=
  .obj [
    ("id", .intNum i),
    ("name", .str (random_string r.nameC 20)),
    ("email", .str (random_string r.emailC 8 ++ "@example.com")),
    ("active", .bool r.active),
    ("score", .floatNum ((r.scoreHundredths.val : ℚ) / 100)),
    ("tags", .arr ((List.range 5).map (fun t => .str (random_string (r.tagC t) 5)))),
    ("metadata", .obj [
      ("created", .str "2024-01-15T10:30:00Z"),
      ("updated", .str "2024-01-15T12:45:00Z"),
      ("version", .intNum (r.versionR.val + 1)),
      ("nested", .obj [
        ("level1", .obj [
          ("level2", .obj [
            ("value", .str (random_string r.valueC 10))])])])])]

/-- The list `data` accumulated by `generate_large_json` over
`range(num_records)` (benchmark.py lines 59–79). -/
def genData (R : Nat → RecordRand) (num_records : Nat) : List JsonValue :=
  (List.range num_records).map (fun i => genRecord (R i) i)

/-- Embedding of `generate_large_json(num_records)` (benchmark.py lines 57–80): builds
`data` and returns `json.dumps(data)`. -/
def generate_large_json (R : Nat → RecordRand) (num_records : Nat) : String :=
  dumps (.arr (genData R num_records))

/- ## Spec-modelled JSON→XML conversion engine

The engine the harness benchmarks is an external executable; its code is
not under `src/`.  The definitions below are modelled from the
specification (§4.3 XML Renderer and §8), not from source code. -/

/-- An XML node: an element with a name and children, or character data.
Modelled from the spec: the renderer's output viewed structurally
(spec §4.3 emits it as bytes; the tree form captures element nesting,
names and text content). -/
inductive Xml where
  | elem (name : String) (children : List Xml) : Xml
  | text (s : String) : Xml

/-- Whether a character may start an XML element name (letter or
underscore; no digit). -/
def xmlNameStartChar (c : Char) : Bool :=
  c.isAlpha || c = '_'

/-- Whether a character may appear after the first position of an XML
element name (letters, digits, hyphen, underscore, full stop). -/
def xmlNameChar (c : Char) : Bool :=
  c.isAlphanum || c = '-' || c = '_' || c = '.'

/-- Modelled from the spec: key sanitization (spec §4.3), a pure function
of the key string — every character outside the XML name grammar is
replaced by an underscore, and a leading underscore marker is added when
the result is empty, starts with a character that cannot start a name, or
starts with the reserved `xml` (case-insensitive). -/
def sanitizeKey (k : String) : String :=
  let replaced : List Char := k.toList.map (fun c => if xmlNameChar c then c else '_')
  let needsMarker : Bool :=
    match replaced with
    | [] => true
    | c :: _ => !xmlNameStartChar c
  let xmlReserved : Bool := (replaced.map Char.toLower).take 3 == ['x', 'm', 'l']
  if needsMarker || xmlReserved then String.mk ('_' :: replaced)
  else String.mk replaced

/-- XML character-data escaping of `&`, `<`, `>` (spec §4.3). -/
def xmlEscape (s : String) : String :=
  String.join (s.toList.map (fun c =>
    if c = '&' then "&amp;"
    else if c = '<' then "&lt;"
    else if c = '>' then "&gt;"
    else String.mk [c]))

mutual

/-- Modelled from the spec: the XML renderer's child list for one JSON
value (spec §4.3) — null becomes an empty element, booleans render as
`true`/`false`, numbers as their decimal text, strings as escaped character
data, each array item becomes an `item` element, and each object entry a
child element named by the sanitized key, in order. -/
def renderValue : JsonValue → List Xml
  | .null => []
  | .bool b => [.text (if b then "true" else "false")]
  | .intNum n => [.text (toString n)]
  | .floatNum q => [.text (floatRepr q)]
  | .str s => [.text (xmlEscape s)]
  | .arr items => renderItems items
  | .obj entries => renderEntries entries

/-- Render array items as `item` elements, in order. -/
def renderItems : List JsonValue → List Xml
  | [] => []
  | v :: vs => .elem "item" (renderValue v) :: renderItems vs

/-- Render object entries as elements named by their sanitized keys, in
order. -/
def renderEntries : List (String × JsonValue) → List Xml
  | [] => []
  | e :: es => .elem (sanitizeKey e.1) (renderValue e.2) :: renderEntries es

end

/-- Modelled from the spec: the conversion facade's render step — a single
`root` element wrapping the rendered value (spec §4.3, §4.4). -/
def convert (v : JsonValue) : Xml :=
  .elem "root" (renderValue v)

mutual

/-- Every (original key, emitted element name) pair the renderer produces
anywhere in a document, in document order. -/
def keyTags : JsonValue → List (String × String)
  | .null => []
  | .bool _ => []
  | .intNum _ => []
  | .floatNum _ => []
  | .str _ => []
  | .arr items => keyTagsItems items
  | .obj entries => keyTagsEntries entries

/-- Key/tag pairs occurring inside array items. -/
def keyTagsItems : List JsonValue → List (String × String)
  | [] => []
  | v :: vs => keyTags v ++ keyTagsItems vs

/-- Key/tag pairs of object entries and their subtrees. -/
def keyTagsEntries : List (String × JsonValue) → List (String × String)
  | [] => []
  | e :: es => (e.1, sanitizeKey e.1) :: (keyTags e.2 ++ keyTagsEntries es)

end

mutual

/-- Number of nodes (elements and text nodes) of an XML tree. -/
def xmlCount : Xml → Nat
  | .elem _ children => 1 + xmlCountList children
  | .text _ => 1

/-- Total node count of a list of XML nodes. -/
def xmlCountList : List Xml → Nat
  | [] => 0
  | x :: xs => xmlCount x + xmlCountList xs

end

/-- The value denoted by the harness's inline small benchmark input
`'{"name": "John", "age": 30, "city": "New York"}'` (benchmark.py
line 200), read under the standard JSON grammar (spec §4.2). -/
def smallJson : JsonValue :=
  .obj [("name", .str "John"), ("age", .intNum 30), ("city", .str "New York")]

/-- A fixed record-randomness oracle (every draw picks the first
possibility), used to instantiate theorems at concrete inputs. -/
def constRecordRand : RecordRand :=
  ⟨fun _ => 0, fun _ => 0, false, 0, 0, fun _ _ => 0, fun _ => 0⟩

/-- The constant randomness oracle for a whole generated document. -/
def constR : Nat → RecordRand := fun _ => constRecordRand

/- ## Helper lemmas -/

/-- A left fold of `min` is bounded by its initial value. -/
theorem foldl_min_le_init (l : List ℚ) (a : ℚ) : l.foldl min a ≤ a := by
  induction l generalizing a with
  | nil => exact le_refl a
  | cons b l ih => exact le_trans (ih (min a b)) (min_le_left a b)

/-- A left fold of `min` lands on the initial value or a list element. -/
theorem foldl_min_mem_cons (l : List ℚ) (a : ℚ) : l.foldl min a ∈ a :: l := by
  induction l generalizing a with
  | nil => exact List.mem_singleton.mpr rfl
  | cons b l ih =>
      rcases List.mem_cons.mp (ih (min a b)) with h | h
      · rcases min_choice a b with hm | hm
        · exact List.mem_cons.mpr (Or.inl (h.trans hm))
        · exact List.mem_cons.mpr (Or.inr (List.mem_cons.mpr (Or.inl (h.trans hm))))
      · exact List.mem_cons.mpr (Or.inr (List.mem_cons.mpr (Or.inr h)))

/-- A left fold of `min` is a lower bound of the initial value and every
list element. -/
theorem foldl_min_le_all (l : List ℚ) (a : ℚ) : ∀ x ∈ a :: l, l.foldl min a ≤ x := by
  induction l generalizing a with
  | nil =>
      intro x hx
      rcases List.mem_singleton.mp hx with rfl
      exact le_refl x
  | cons b l ih =>
      intro x hx
      rcases List.mem_cons.mp hx with h | hx
      · rw [h]
        exact foldl_min_le_init (b :: l) a
      · rcases List.mem_cons.mp hx with h | hx
        · rw [h]
          exact le_trans (foldl_min_le_init l (min a b)) (min_le_right a b)
        · exact ih (min a b) x (List.mem_cons.mpr (Or.inr hx))

/-- A left fold of `max` dominates its initial value. -/
theorem le_foldl_max_init (l : List ℚ) (a : ℚ) : a ≤ l.foldl max a := by
  induction l generalizing a with
  | nil => exact le_refl a
  | cons b l ih => exact le_trans (le_max_left a b) (ih (max a b))

/-- A left fold of `max` lands on the initial value or a list element. -/
theorem foldl_max_mem_cons (l : List ℚ) (a : ℚ) : l.foldl max a ∈ a :: l := by
  induction l generalizing a with
  | nil => exact List.mem_singleton.mpr rfl
  | cons b l ih =>
      rcases List.mem_cons.mp (ih (max a b)) with h | h
      · rcases max_choice a b with hm | hm
        · exact List.mem_cons.mpr (Or.inl (h.trans hm))
        · exact List.mem_cons.mpr (Or.inr (List.mem_cons.mpr (Or.inl (h.trans hm))))
      · exact List.mem_cons.mpr (Or.inr (List.mem_cons.mpr (Or.inr h)))

/-- A left fold of `max` is an upper bound of the initial value and every
list element. -/
theorem foldl_max_le_all (l : List ℚ) (a : ℚ) : ∀ x ∈ a :: l, x ≤ l.foldl max a := by
  induction l generalizing a with
  | nil =>
      intro x hx
      rcases List.mem_singleton.mp hx with rfl
      exact le_refl x
  | cons b l ih =>
      intro x hx
      rcases List.mem_cons.mp hx with h | hx
      · rw [h]
        exact le_foldl_max_init (b :: l) a
      · rcases List.mem_cons.mp hx with h | hx
        · rw [h]
          exact le_trans (le_max_right a b) (le_foldl_max_init l (max a b))
        · exact ih (max a b) x (List.mem_cons.mpr (Or.inr hx))

/-- Every division of the per-size summary loop has a positive
denominator. -/
theorem perSizeDivs_pos (d : SizeResult) : ∀ p ∈ perSizeDivs d, 0 < p.2 := by
  intro p hp
  simp only [perSizeDivs, List.mem_append] at hp
  rcases hp with (hp | hp) | hp
  · by_cases h : d.go.avg > 0
    · rw [if_pos h] at hp
      rw [List.mem_singleton.mp hp]
      exact h
    · rw [if_neg h] at hp
      exact absurd hp (List.not_mem_nil p)
  · by_cases h : d.zig.avg > 0
    · rw [if_pos h] at hp
      rw [List.mem_singleton.mp hp]
      exact h
    · rw [if_neg h] at hp
      exact absurd hp (List.not_mem_nil p)
  · by_cases h : d.go.avg > 0 ∧ d.zig.avg > 0
    · rw [if_pos h] at hp
      rcases List.mem_cons.mp hp with h4 | h4
      · rw [h4]
        exact h.2
      · by_cases h5 : d.go.avg / d.zig.avg > 1
        · rw [if_pos h5] at h4
          exact absurd h4 (List.not_mem_nil p)
        · rw [if_neg h5] at h4
          rw [List.mem_singleton.mp h4]
          exact div_pos h.1 h.2
    · rw [if_neg h] at hp
      exact absurd hp (List.not_mem_nil p)

/-- Every division of the overall-average summary has a positive
denominator. -/
theorem overallDivs_pos (rs : List SizeResult) : ∀ p ∈ overallDivs rs, 0 < p.2 := by
  intro p hp
  simp only [overallDivs, List.mem_append] at hp
  rcases hp with hp | hp
  · by_cases h : totalGo rs > 0
    · rw [if_pos h] at hp
      rw [List.mem_singleton.mp hp]
      exact h
    · rw [if_neg h] at hp
      exact absurd hp (List.not_mem_nil p)
  · by_cases h : totalZig rs > 0
    · rw [if_pos h] at hp
      rcases List.mem_cons.mp hp with h2 | h2
      · rw [h2]
        exact h
      · by_cases h3 : totalGo rs > 0
        · rw [if_pos h3] at h2
          rcases List.mem_cons.mp h2 with h4 | h4
          · rw [h4]
            exact h
          · by_cases h5 : totalGo rs / totalZig rs > 1
            · rw [if_pos h5] at h4
              exact absurd h4 (List.not_mem_nil p)
            · rw [if_neg h5] at h4
              rw [List.mem_singleton.mp h4]
              exact div_pos h3 h
        · rw [if_neg h3] at h2
          exact absurd h2 (List.not_mem_nil p)
    · rw [if_neg h] at hp
      exact absurd hp (List.not_mem_nil p)

/- ## Claim theorems -/

/-- C1: Converting the harness's inline small benchmark input
`{"name": "John", "age": 30, "city": "New York"}` produces XML whose root
element contains exactly three child elements named `name`, `age`, `city`
with text content `John`, `30`, `New York` respectively. -/
theorem c1_small_input_conversion :
    convert smallJson =
      Xml.elem "root"
        [Xml.elem "name" [Xml.text "John"],
         Xml.elem "age" [Xml.text "30"],
         Xml.elem "city" [Xml.text "New York"]] := rfl

/-- C6: Every speedup ratio printed in the summary (Python/Go, Python/Zig,
Go/Zig, per size and overall) is a division whose denominator is strictly
positive — no division by zero can occur for any benchmark results,
including zero-average entries recorded for an unavailable tool. -/
theorem c6_summary_divisions_safe (rs : List SizeResult) :
    ∀ p ∈ summaryDivs rs, 0 < p.2 := by
  intro p hp
  rcases List.mem_append.mp hp with h | h
  · rcases List.mem_flatten.mp h with ⟨l, hl, hpl⟩
    rcases List.mem_map.mp hl with ⟨d, _, rfl⟩
    exact perSizeDivs_pos d p hpl
  · exact overallDivs_pos rs p h

/-- Witness for C6 at a concrete results table: the per-size Python/Go
division appears in the trace and its denominator is positive. -/
theorem c6_witness :
    ((1 : ℚ), (1 : ℚ)) ∈ summaryDivs [⟨⟨1, 1, 1⟩, ⟨1, 1, 1⟩, ⟨1, 1, 1⟩⟩] ∧
    (0 : ℚ) < ((1 : ℚ), (1 : ℚ)).2 := by
  have hmem : ((1 : ℚ), (1 : ℚ)) ∈ summaryDivs [⟨⟨1, 1, 1⟩, ⟨1, 1, 1⟩, ⟨1, 1, 1⟩⟩] := by
    norm_num [summaryDivs, perSizeDivs, overallDivs, totalPy, totalGo, totalZig]
  exact ⟨hmem, c6_summary_divisions_safe _ _ hmem⟩

/-- C9: `format_time` partitions its nonnegative input into three
exhaustive ranges: below 1 ms the value is scaled by 1000 and suffixed
`µs`; from 1 ms up to (excluding) 1000 ms it is printed as is with suffix
`ms`; at and above 1000 ms it is divided by 1000 and suffixed `s` — in each
case formatted to two decimals by `fmt2`. -/
theorem c9_format_time_partition (ms : ℚ) (h0 : 0 ≤ ms) :
    (ms < 1 → format_time ms = fmt2 (ms * 1000) ++ "µs") ∧
    (1 ≤ ms → ms < 1000 → format_time ms = fmt2 ms ++ "ms") ∧
    (1000 ≤ ms → format_time ms = fmt2 (ms / 1000) ++ "s") := by
  refine ⟨fun h => ?_, fun h1 h2 => ?_, fun h => ?_⟩
  · simp only [format_time]
    rw [if_pos h]
  · simp only [format_time]
    rw [if_neg (not_lt.mpr h1), if_pos h2]
  · simp only [format_time]
    rw [if_neg (not_lt.mpr (by linarith)), if_neg (not_lt.mpr h)]

/-- Witness for C9 at 500 ms: the middle range applies. -/
theorem c9_witness :
    (0 : ℚ) ≤ 500 ∧ format_time 500 = fmt2 500 ++ "ms" :=
  ⟨by norm_num,
   (c9_format_time_partition 500 (by norm_num)).2.1 (by norm_num) (by norm_num)⟩

/-- C10: `main` returns exit code 1 and attempts no benchmark run exactly
when the Python json2xml package cannot be imported, or the Zig binary is
absent and `zig build` fails; otherwise (in particular when only the Go
binary is missing) it runs the suite and returns 0. -/
theorem c10_main_exit (e : Env) :
    ((mainRun e).1 = 1 ∧ (mainRun e).2 = 0 ↔
      e.pythonOk = false ∨ (e.zigExists = false ∧ e.zigBuildRc ≠ 0)) ∧
    ((mainRun e).1 = 0 ↔
      ¬(e.pythonOk = false ∨ (e.zigExists = false ∧ e.zigBuildRc ≠ 0))) ∧
    (e.pythonOk = true → e.goExists = false → e.zigExists = true →
      (mainRun e).1 = 0 ∧ 0 < (mainRun e).2) := by
  obtain ⟨p, g, z, rc, m⟩ := e
  by_cases hrc : rc = 0 <;>
    cases p <;> cases g <;> cases z <;> cases m <;>
    simp [mainRun, hrc]

/-- Witness for C10: with Python available, Go missing and the Zig binary
present, the suite runs (8 benchmark invocations without the medium file)
and exits 0. -/
theorem c10_witness :
    (mainRun ⟨true, false, true, 5, false⟩).1 = 0 ∧
    0 < (mainRun ⟨true, false, true, 5, false⟩).2 :=
  (c10_main_exit ⟨true, false, true, 5, false⟩).2.2 rfl rfl rfl

/- ## Lemmas about `run_benchmark` -/

/-- Unfolding of `run_benchmark` as a match over the durations of the
successful timed runs. -/
theorem run_benchmark_def (w t : List SubprocResult) :
    run_benchmark w t =
      match (t.filter (fun r => r.returncode == 0)).map (fun r => r.duration) with
      | [] => ⟨0, 0, 0⟩
      | a :: l => ⟨(a :: l).sum / (a :: l).length, l.foldl min a, l.foldl max a⟩ := rfl

/-- Value of `run_benchmark` on a known nonempty success-duration list. -/
theorem run_benchmark_of_eq (w t : List SubprocResult) (a : ℚ) (l : List ℚ)
    (h : (t.filter (fun r => r.returncode == 0)).map (fun r => r.duration) = a :: l) :
    run_benchmark w t =
      ⟨(a :: l).sum / (a :: l).length, l.foldl min a, l.foldl max a⟩ := by
  rw [run_benchmark_def w t, h]

/-- When every timed run fails, `run_benchmark` returns the zero dict. -/
theorem run_benchmark_all_fail (w t : List SubprocResult)
    (h : ∀ r ∈ t, r.returncode ≠ 0) : run_benchmark w t = ⟨0, 0, 0⟩ := by
  have hf : t.filter (fun r => r.returncode == 0) = [] :=
    List.filter_eq_nil_iff.mpr (fun r hr => by simpa using h r hr)
  rw [run_benchmark_def w t, hf]
  rfl

/-- Every duration in the success list is the duration of some timed run. -/
theorem mem_success_durations (t : List SubprocResult) (x : ℚ)
    (hx : x ∈ (t.filter (fun r => r.returncode == 0)).map (fun r => r.duration)) :
    ∃ r ∈ t, r.duration = x := by
  rcases List.mem_map.mp hx with ⟨s, hs, rfl⟩
  exact ⟨s, List.mem_of_mem_filter hs, rfl⟩

/-- When some timed run succeeds with positive duration and no duration is
negative, the returned average is strictly positive. -/
theorem run_benchmark_avg_pos (w t : List SubprocResult)
    (hd : ∀ r ∈ t, 0 ≤ r.duration)
    (hex : ∃ r ∈ t, r.returncode = 0 ∧ 0 < r.duration) :
    0 < (run_benchmark w t).avg := by
  obtain ⟨r, hrt, hrc, hrd⟩ := hex
  have hmem : r.duration ∈
      (t.filter (fun s => s.returncode == 0)).map (fun s => s.duration) :=
    List.mem_map.mpr ⟨r, List.mem_filter.mpr ⟨hrt, by simpa using hrc⟩, rfl⟩
  cases h : (t.filter (fun s => s.returncode == 0)).map (fun s => s.duration) with
  | nil =>
      rw [h] at hmem
      exact absurd hmem (List.not_mem_nil _)
  | cons a l =>
      rw [run_benchmark_of_eq w t a l h]
      have hnn : ∀ x ∈ a :: l, 0 ≤ x := by
        intro x hx
        rcases mem_success_durations t x (h ▸ hx) with ⟨s, hst, hsx⟩
        exact hsx ▸ hd s hst
      have hsum : 0 < (a :: l).sum :=
        lt_of_lt_of_le hrd (List.single_le_sum hnn r.duration (h ▸ hmem))
      have hlen : (0 : ℚ) < ((a :: l).length : ℚ) := by
        exact_mod_cast l.length.succ_pos
      exact div_pos hsum hlen

/- (claims C2, C3, C8) -/

/-- C2 counterexample: a `run_benchmark` in which one timed invocation
exited nonzero returns the very same statistics dict as one in which every
timed invocation succeeded, so the failure is not distinguishable from
success in the returned result (it is only printed). -/
theorem c2_counterexample :
    run_benchmark [] [⟨1, 123⟩, ⟨0, 7⟩] = run_benchmark [] [⟨0, 7⟩, ⟨0, 7⟩] ∧
    (⟨1, 123⟩ : SubprocResult).returncode ≠ 0 ∧
    (⟨0, 7⟩ : SubprocResult).returncode = 0 :=
  ⟨by simp [run_benchmark], by decide, rfl⟩

/-- C2 (amended): when every timed run exits nonzero, `run_benchmark`
returns the all-zero dict, which differs from any result of a benchmark
whose runs all have nonnegative durations and at least one success with
positive duration (such a result has positive `avg`); a partial failure,
however, is reported only on stdout, not in the returned statistics. -/
theorem c2_failure_result_amended (warmupRuns timedRuns : List SubprocResult) :
    ((∀ r ∈ timedRuns, r.returncode ≠ 0) →
      run_benchmark warmupRuns timedRuns = ⟨0, 0, 0⟩) ∧
    ((∀ r ∈ timedRuns, 0 ≤ r.duration) →
      (∃ r ∈ timedRuns, r.returncode = 0 ∧ 0 < r.duration) →
      0 < (run_benchmark warmupRuns timedRuns).avg) :=
  ⟨run_benchmark_all_fail warmupRuns timedRuns,
   run_benchmark_avg_pos warmupRuns timedRuns⟩

/-- Witness for C2 (amended) at concrete runs: an all-failed benchmark
returns the zero dict, and a succeeding one has positive average. -/
theorem c2_amended_witness :
    run_benchmark [] [⟨1, 5⟩] = ⟨0, 0, 0⟩ ∧
    0 < (run_benchmark [] [⟨0, 5⟩]).avg :=
  ⟨(c2_failure_result_amended [] [⟨1, 5⟩]).1 (by decide),
   (c2_failure_result_amended [] [⟨0, 5⟩]).2 (by norm_num) (by norm_num)⟩

/-- C3: for any command outcomes, the returned statistics are computed only
over the timed runs that exited 0: `avg` is the arithmetic mean of their
durations, `min` their minimum, `max` their maximum, and the warmup runs
contribute nothing. -/
theorem c3_run_benchmark_stats (warmupRuns timedRuns : List SubprocResult)
    (t : ℚ) (ts : List ℚ)
    (h : (timedRuns.filter (fun r => r.returncode == 0)).map (fun r => r.duration)
      = t :: ts) :
    (run_benchmark warmupRuns timedRuns).avg = (t :: ts).sum / (t :: ts).length ∧
    (run_benchmark warmupRuns timedRuns).min ∈ t :: ts ∧
    (∀ x ∈ t :: ts, (run_benchmark warmupRuns timedRuns).min ≤ x) ∧
    (run_benchmark warmupRuns timedRuns).max ∈ t :: ts ∧
    (∀ x ∈ t :: ts, x ≤ (run_benchmark warmupRuns timedRuns).max) ∧
    (∀ w2 : List SubprocResult,
      run_benchmark w2 timedRuns = run_benchmark warmupRuns timedRuns) := by
  rw [run_benchmark_of_eq warmupRuns timedRuns t ts h]
  refine ⟨rfl, foldl_min_mem_cons ts t, foldl_min_le_all ts t,
    foldl_max_mem_cons ts t, foldl_max_le_all ts t, fun w2 => ?_⟩
  rw [run_benchmark_of_eq w2 timedRuns t ts h]

/-- Witness for C3 at concrete outcomes: two of three timed runs succeed
(durations 5 and 3); the stats are computed over exactly those two. -/
theorem c3_witness :
    (([⟨0, 5⟩, ⟨1, 9⟩, ⟨0, 3⟩] : List SubprocResult).filter
        (fun r => r.returncode == 0)).map (fun r => r.duration) = [5, 3] ∧
    (run_benchmark [] [⟨0, 5⟩, ⟨1, 9⟩, ⟨0, 3⟩]).avg = ([(5 : ℚ), 3].sum / ([(5 : ℚ), 3].length : ℚ)) ∧
    (run_benchmark [] [⟨0, 5⟩, ⟨1, 9⟩, ⟨0, 3⟩]).min ∈ [(5 : ℚ), 3] := by
  have h : (([⟨0, 5⟩, ⟨1, 9⟩, ⟨0, 3⟩] : List SubprocResult).filter
      (fun r => r.returncode == 0)).map (fun r => r.duration) = [5, 3] := by
    simp
  have c := c3_run_benchmark_stats [] [⟨0, 5⟩, ⟨1, 9⟩, ⟨0, 3⟩] 5 [3] h
  exact ⟨h, c.1, c.2.1⟩

/-- C8: `run_benchmark` is total over its outcome space: it always returns
a dict with exactly the fields `avg`, `min`, `max` (the `BenchStats` type),
each nonnegative when no measured duration is negative; with no timed runs,
or when every timed run exits nonzero, it returns the zero dict. -/
theorem c8_run_benchmark_total (warmupRuns timedRuns : List SubprocResult)
    (hd : ∀ r ∈ timedRuns, 0 ≤ r.duration) :
    0 ≤ (run_benchmark warmupRuns timedRuns).avg ∧
    0 ≤ (run_benchmark warmupRuns timedRuns).min ∧
    0 ≤ (run_benchmark warmupRuns timedRuns).max ∧
    (timedRuns = [] → run_benchmark warmupRuns timedRuns = ⟨0, 0, 0⟩) ∧
    ((∀ r ∈ timedRuns, r.returncode ≠ 0) →
      run_benchmark warmupRuns timedRuns = ⟨0, 0, 0⟩) := by
  have last2 :
      (timedRuns = [] → run_benchmark warmupRuns timedRuns = ⟨0, 0, 0⟩) ∧
      ((∀ r ∈ timedRuns, r.returncode ≠ 0) →
        run_benchmark warmupRuns timedRuns = ⟨0, 0, 0⟩) := by
    refine ⟨fun ht => ?_, run_benchmark_all_fail warmupRuns timedRuns⟩
    rw [ht]
    rfl
  refine ⟨?_, ?_, ?_, last2.1, last2.2⟩ <;>
    cases h : (timedRuns.filter (fun r => r.returncode == 0)).map
      (fun r => r.duration) with
  | nil =>
      have e : run_benchmark warmupRuns timedRuns = ⟨0, 0, 0⟩ := by
        rw [run_benchmark_def warmupRuns timedRuns, h]
      rw [e]
  | cons a l =>
      have hnn : ∀ x ∈ a :: l, 0 ≤ x := by
        intro x hx
        rcases mem_success_durations timedRuns x (h ▸ hx) with ⟨s, hst, hsx⟩
        exact hsx ▸ hd s hst
      rw [run_benchmark_of_eq warmupRuns timedRuns a l h]
      first
      | exact div_nonneg (List.sum_nonneg hnn) (by positivity)
      | exact hnn _ (foldl_min_mem_cons l a)
      | exact hnn _ (foldl_max_mem_cons l a)

/-- Witness for C8 at concrete runs with nonnegative durations. -/
theorem c8_witness :
    0 ≤ (run_benchmark [] [⟨0, 5⟩, ⟨1, 9⟩]).avg ∧
    run_benchmark [] ([] : List SubprocResult) = ⟨0, 0, 0⟩ := by
  have c := c8_run_benchmark_total [] [⟨0, 5⟩, ⟨1, 9⟩] (by norm_num)
  have c0 := c8_run_benchmark_total [] ([] : List SubprocResult) (by simp)
  exact ⟨c.1, c0.2.2.2.1 rfl⟩

/- ## Lemmas about `keyTags` (claim C7) -/

mutual

/-- Every emitted element name recorded by `keyTags` is the sanitization of
its original key. -/
theorem keyTags_snd : ∀ (v : JsonValue) (p : String × String),
    p ∈ keyTags v → p.2 = sanitizeKey p.1
  | .null, p, hp => absurd hp (List.not_mem_nil p)
  | .bool _, p, hp => absurd hp (List.not_mem_nil p)
  | .intNum _, p, hp => absurd hp (List.not_mem_nil p)
  | .floatNum _, p, hp => absurd hp (List.not_mem_nil p)
  | .str _, p, hp => absurd hp (List.not_mem_nil p)
  | .arr items, p, hp => keyTagsItems_snd items p hp
  | .obj entries, p, hp => keyTagsEntries_snd entries p hp

/-- Lemma `keyTags_snd`, for the pairs of array items. -/
theorem keyTagsItems_snd : ∀ (l : List JsonValue) (p : String × String),
    p ∈ keyTagsItems l → p.2 = sanitizeKey p.1
  | [], p, hp => absurd hp (List.not_mem_nil p)
  | v :: vs, p, hp =>
      (List.mem_append.mp hp).elim (keyTags_snd v p) (keyTagsItems_snd vs p)

/-- Lemma `keyTags_snd`, for the pairs of object entries. -/
theorem keyTagsEntries_snd : ∀ (l : List (String × JsonValue)) (p : String × String),
    p ∈ keyTagsEntries l → p.2 = sanitizeKey p.1
  | [], p, hp => absurd hp (List.not_mem_nil p)
  | e :: es, p, hp =>
      (List.mem_cons.mp hp).elim
        (fun h => by rw [h])
        (fun h => (List.mem_append.mp h).elim
          (keyTags_snd e.2 p) (keyTagsEntries_snd es p))

end

/-- C7: Key sanitization is deterministic and context-free: any two
occurrences of the same key string, in any documents and at any positions,
are rendered under the same element name. -/
theorem c7_sanitization_deterministic (v1 v2 : JsonValue) (p1 p2 : String × String)
    (h1 : p1 ∈ keyTags v1) (h2 : p2 ∈ keyTags v2) (hk : p1.1 = p2.1) :
    p1.2 = p2.2 := by
  rw [keyTags_snd v1 p1 h1, keyTags_snd v2 p2 h2, hk]

/-- Witness for C7: the key `"a b"` occurs in two different documents at
different nesting positions; both occurrences render as `a_b`. -/
theorem c7_witness :
    ("a b", "a_b") ∈ keyTags (JsonValue.obj [("a b", JsonValue.null)]) ∧
    ("a b", "a_b") ∈ keyTags (JsonValue.arr [JsonValue.obj [("a b", JsonValue.bool true)]]) ∧
    ("a_b" : String) = "a_b" := by
  have h1 : ("a b", "a_b") ∈ keyTags (JsonValue.obj [("a b", JsonValue.null)]) :=
    List.mem_singleton.mpr rfl
  have h2 : ("a b", "a_b") ∈
      keyTags (JsonValue.arr [JsonValue.obj [("a b", JsonValue.bool true)]]) :=
    List.mem_singleton.mpr rfl
  exact ⟨h1, h2,
    c7_sanitization_deterministic _ _ ("a b", "a_b") ("a b", "a_b") h1 h2 rfl⟩

/- ## Lemmas about `generate_large_json` (claims C4, C5) -/

/-- Function `generate_large_json` builds one record per loop index. -/
theorem genData_length (R : Nat → RecordRand) (n : Nat) :
    (genData R n).length = n := by
  simp [genData]

/-- The `i`-th generated record is `genRecord (R i) i`. -/
theorem genData_get (R : Nat → RecordRand) (n i : Nat)
    (h : i < (genData R n).length) :
    (genData R n).get ⟨i, h⟩ = genRecord (R i) i := by
  simp [genData]

/-- Every member of the generated data is a record built at some index
below `n`. -/
theorem mem_genData {R : Nat → RecordRand} {n : Nat} {v : JsonValue}
    (hv : v ∈ genData R n) : ∃ i, i < n ∧ v = genRecord (R i) i := by
  rcases List.mem_map.mp hv with ⟨i, hi, rfl⟩
  exact ⟨i, List.mem_range.mp hi, rfl⟩

/-- A generated random string has exactly the requested length. -/
theorem random_string_length (c : Nat → Fin 52) (len : Nat) :
    (random_string c len).length = len := by
  simp [random_string]

set_option maxHeartbeats 1600000 in
/-- Node count of one generated record: 20, independent of index and
randomness. -/
theorem nodeCount_genRecord (r : RecordRand) (i : Nat) :
    nodeCount (genRecord r i) = 20 := rfl

/-- Node count of a singleton list. -/
theorem nodeCountList_single (v : JsonValue) : nodeCountList [v] = nodeCount v := by
  show nodeCount v + nodeCountList [] = nodeCount v
  show nodeCount v + 0 = nodeCount v
  ring

/-- Function `nodeCountList` distributes over append. -/
theorem nodeCountList_append (a b : List JsonValue) :
    nodeCountList (a ++ b) = nodeCountList a + nodeCountList b := by
  induction a with
  | nil => simp [nodeCountList]
  | cons v vs ih =>
      show nodeCount v + nodeCountList (vs ++ b) = nodeCount v + nodeCountList vs + nodeCountList b
      rw [ih]
      ring

/-- Total node count of the generated data grows linearly: 20 per record. -/
theorem nodeCountList_genData (R : Nat → RecordRand) (n : Nat) :
    nodeCountList (genData R n) = 20 * n := by
  induction n with
  | zero => rfl
  | succ n ih =>
      have hsplit : genData R (n + 1) = genData R n ++ [genRecord (R n) n] := by
        simp [genData, List.range_succ]
      rw [hsplit, nodeCountList_append, ih, nodeCountList_single,
        nodeCount_genRecord]
      ring

/-- Node count of the whole generated document: linear in the record
count. -/
theorem nodeCount_genData (R : Nat → RecordRand) (n : Nat) :
    nodeCount (JsonValue.arr (genData R n)) = 20 * n + 1 := by
  show 1 + nodeCountList (genData R n) = 20 * n + 1
  rw [nodeCountList_genData]
  ring

/-- Function `renderItems` distributes over append. -/
theorem renderItems_append (a b : List JsonValue) :
    renderItems (a ++ b) = renderItems a ++ renderItems b := by
  induction a with
  | nil => simp [renderItems]
  | cons v vs ih => simp [renderItems, ih]

/-- XML node count of a singleton list. -/
theorem xmlCountList_single (x : Xml) : xmlCountList [x] = xmlCount x := by
  show xmlCount x + xmlCountList [] = xmlCount x
  show xmlCount x + 0 = xmlCount x
  ring

/-- Function `xmlCountList` distributes over append. -/
theorem xmlCountList_append (a b : List Xml) :
    xmlCountList (a ++ b) = xmlCountList a + xmlCountList b := by
  induction a with
  | nil => simp [xmlCountList]
  | cons x xs ih =>
      show xmlCount x + xmlCountList (xs ++ b) = xmlCount x + xmlCountList xs + xmlCountList b
      rw [ih]
      ring

set_option maxHeartbeats 1600000 in
/-- XML node count of one rendered record: 34, independent of index and
randomness. -/
theorem xmlCount_item_genRecord (r : RecordRand) (i : Nat) :
    xmlCount (Xml.elem "item" (renderValue (genRecord r i))) = 34 := rfl

/-- XML node count of the rendered generated data grows linearly: 34 per
record. -/
theorem xmlCountList_genData (R : Nat → RecordRand) (n : Nat) :
    xmlCountList (renderItems (genData R n)) = 34 * n := by
  induction n with
  | zero => rfl
  | succ n ih =>
      have hsplit : genData R (n + 1) = genData R n ++ [genRecord (R n) n] := by
        simp [genData, List.range_succ]
      rw [hsplit, renderItems_append, xmlCountList_append, ih,
        show renderItems [genRecord (R n) n]
          = [Xml.elem "item" (renderValue (genRecord (R n) n))] from rfl,
        xmlCountList_single, xmlCount_item_genRecord]
      ring

/-- XML node count of the converted generated document: linear in the
record count. -/
theorem xmlCount_convert_genData (R : Nat → RecordRand) (n : Nat) :
    xmlCount (convert (JsonValue.arr (genData R n))) = 34 * n + 1 := by
  show 1 + xmlCountList (renderItems (genData R n)) = 34 * n + 1
  rw [xmlCountList_genData]
  ring

set_option maxHeartbeats 1600000 in
/-- The keys of a generated record, in insertion order. -/
theorem objKeys_genRecord (r : RecordRand) (i : Nat) :
    objKeys (genRecord r i)
      = ["id", "name", "email", "active", "score", "tags", "metadata"] := rfl

set_option maxHeartbeats 1600000 in
/-- The `id` field of the record generated at index `i` is `i`. -/
theorem jlookup_id_genRecord (r : RecordRand) (i : Nat) :
    jlookup "id" (genRecord r i) = some (JsonValue.intNum i) := rfl

/-- C4: `generate_large_json(num_records)` returns the JSON serialization of
an array of exactly `num_records` objects; the `i`-th object has the key set
`{id, name, email, active, score, tags, metadata}` and its `id` field equals
`i`. -/
theorem c4_generate_large_json (R : Nat → RecordRand) (n : Nat) :
    generate_large_json R n = dumps (JsonValue.arr (genData R n)) ∧
    (genData R n).length = n ∧
    ∀ i (h : i < (genData R n).length),
      objKeys ((genData R n).get ⟨i, h⟩)
        = ["id", "name", "email", "active", "score", "tags", "metadata"] ∧
      jlookup "id" ((genData R n).get ⟨i, h⟩) = some (JsonValue.intNum i) := by
  refine ⟨rfl, genData_length R n, fun i h => ?_⟩
  rw [genData_get R n i h]
  exact ⟨objKeys_genRecord (R i) i, jlookup_id_genRecord (R i) i⟩

/-- Witness for C4 at one generated record under the constant oracle. -/
theorem c4_witness :
    (genData constR 1).length = 1 ∧
    objKeys ((genData constR 1).get ⟨0, by simp [genData]⟩)
      = ["id", "name", "email", "active", "score", "tags", "metadata"] ∧
    jlookup "id" ((genData constR 1).get ⟨0, by simp [genData]⟩)
      = some (JsonValue.intNum 0) := by
  have c := c4_generate_large_json constR 1
  have h0 : 0 < (genData constR 1).length := by simp [genData]
  exact ⟨c.2.1, (c.2.2 0 h0).1, (c.2.2 0 h0).2⟩

set_option maxHeartbeats 1600000 in
/-- The `tags` field of a generated record: five random strings of length
five. -/
theorem jlookup_tags_genRecord (r : RecordRand) (i : Nat) :
    jlookup "tags" (genRecord r i)
      = some (JsonValue.arr ((List.range 5).map
          (fun t => JsonValue.str (random_string (r.tagC t) 5)))) := rfl

set_option maxHeartbeats 1600000 in
/-- The `metadata` field of a generated record nests
`nested` → `level1` → `level2` → `value`. -/
theorem jlookup_metadata_genRecord (r : RecordRand) (i : Nat) :
    ∃ md nv l1 l2,
      jlookup "metadata" (genRecord r i) = some md ∧
      jlookup "nested" md = some nv ∧
      jlookup "level1" nv = some l1 ∧
      jlookup "level2" l1 = some l2 ∧
      jlookup "value" l2 = some (JsonValue.str (random_string r.valueC 10)) :=
  ⟨.obj [
      ("created", .str "2024-01-15T10:30:00Z"),
      ("updated", .str "2024-01-15T12:45:00Z"),
      ("version", .intNum (r.versionR.val + 1)),
      ("nested", .obj [
        ("level1", .obj [
          ("level2", .obj [
            ("value", .str (random_string r.valueC 10))])])])],
    .obj [("level1", .obj [("level2", .obj [("value", .str (random_string r.valueC 10))])])],
    .obj [("level2", .obj [("value", .str (random_string r.valueC 10))])],
    .obj [("value", .str (random_string r.valueC 10))],
    rfl, rfl, rfl, rfl, rfl⟩

/-- C5: The very-large benchmark input is a 5000-record document: each
record holds a `tags` array of exactly five five-character strings and a
`metadata` object nesting `nested` → `level1` → `level2` → `value`; parsing
(the value tree) and rendering (the XML tree) both scale linearly in the
record count (20 resp. 34 nodes per record). -/
theorem c5_very_large_generation (R : Nat → RecordRand) :
    (genData R 5000).length = 5000 ∧
    (∀ v ∈ genData R 5000,
      (∃ ts, jlookup "tags" v = some (JsonValue.arr ts) ∧ ts.length = 5 ∧
        ∀ t ∈ ts, ∃ s, t = JsonValue.str s ∧ s.length = 5) ∧
      (∃ md nv l1 l2 s, jlookup "metadata" v = some md ∧
        jlookup "nested" md = some nv ∧
        jlookup "level1" nv = some l1 ∧
        jlookup "level2" l1 = some l2 ∧
        jlookup "value" l2 = some (JsonValue.str s) ∧ s.length = 10)) ∧
    (∀ n, nodeCount (JsonValue.arr (genData R n)) = 20 * n + 1) ∧
    (∀ n, xmlCount (convert (JsonValue.arr (genData R n))) = 34 * n + 1) := by
  refine ⟨genData_length R 5000, fun v hv => ?_, nodeCount_genData R,
    xmlCount_convert_genData R⟩
  rcases mem_genData hv with ⟨i, hi, rfl⟩
  constructor
  · refine ⟨(List.range 5).map (fun t => JsonValue.str (random_string ((R i).tagC t) 5)),
      jlookup_tags_genRecord (R i) i, by simp, ?_⟩
    intro t ht
    rcases List.mem_map.mp ht with ⟨j, hj, rfl⟩
    exact ⟨random_string ((R i).tagC j) 5, rfl, random_string_length _ 5⟩
  · rcases jlookup_metadata_genRecord (R i) i with ⟨md, nv, l1, l2, h1, h2, h3, h4, h5⟩
    exact ⟨md, nv, l1, l2, random_string (R i).valueC 10, h1, h2, h3, h4, h5,
      random_string_length _ 10⟩

/-- Witness for C5 under the constant oracle: the first record is in the
5000-record document and has the claimed tags shape; the node counts are
the linear values at 5000 records. -/
theorem c5_witness :
    (genData constR 5000).length = 5000 ∧
    genRecord (constR 0) 0 ∈ genData constR 5000 ∧
    (∃ ts, jlookup "tags" (genRecord (constR 0) 0) = some (JsonValue.arr ts) ∧
      ts.length = 5 ∧ ∀ t ∈ ts, ∃ s, t = JsonValue.str s ∧ s.length = 5) ∧
    nodeCount (JsonValue.arr (genData constR 5000)) = 20 * 5000 + 1 ∧
    xmlCount (convert (JsonValue.arr (genData constR 5000))) = 34 * 5000 + 1 := by
  have hmem : genRecord (constR 0) 0 ∈ genData constR 5000 :=
    List.mem_map.mpr ⟨0, List.mem_range.mpr (by norm_num), rfl⟩
  have c := c5_very_large_generation constR
  exact ⟨c.1, hmem, (c.2.1 _ hmem).1, c.2.2.1 5000, c.2.2.2 5000⟩
